import Mathlib

/-!
Verification of the atomic-chess rules engine.

The repository contains two implementations of the same engine:
the class ChessVar in ChessVar.py (used by the GUI) and the class
AtomicChessGame in chess_logic.py (a standalone rewrite).  Both are
embedded here, over the same state type, as the namespaces ChessVar
and ChessLogic.  Boards are Python lists of lists of piece codes;
Python list indexing is modelled exactly: a negative index of
magnitude at most the length wraps to the end of the list, an index
at or past the length raises IndexError (modelled as Option.none).
This wrap behaviour is observable in ChessVar, whose neighbourhood
scan and explosion use try/except IndexError around raw indexing.
-/

namespace AtomicChess

/-- Board representation: the Python list of lists of integer piece codes
(0 empty, 1..6 black, 10..60 white). -/
abbrev Board := List (List Nat)

/-- Python list indexing: a nonnegative index must be below the length,
a negative index of magnitude at most the length wraps from the end,
and any other index raises IndexError (none). -/
def pyIdx (i : Int) (len : Nat) : Option Nat :=
  if 0 ≤ i ∧ i < (len : Int) then some i.toNat
  else if 0 ≤ i + (len : Int) ∧ i + (len : Int) < (len : Int) then some (i + (len : Int)).toNat
  else none

/-- Python read board[r][c]; none models an IndexError. -/
def pyGet (b : Board) (r c : Int) : Option Nat :=
  (pyIdx r b.length).bind fun ri =>
    b[ri]?.bind fun row =>
      (pyIdx c row.length).bind fun ci => row[ci]?

/-- Value of a board cell; out-of-range reads default to 0.  All engine
call sites either bounds-check first or are used under in-range
hypotheses, so the default is never observable in the claims. -/
def cellI (b : Board) (r c : Int) : Nat := (pyGet b r c).getD 0

/-- Python write board[r][c] = v, with the same index semantics as pyGet;
an out-of-range write leaves the board unchanged (the engines only write
after a successful read or an explicit bounds check at the same index). -/
def pySet (b : Board) (r c : Int) (v : Nat) : Board :=
  match pyIdx r b.length with
  | none => b
  | some ri =>
    match pyIdx c (b.getD ri []).length with
    | none => b
    | some ci => b.set ri ((b.getD ri []).set ci v)

/-- Well-formed 8x8 board. -/
def wfBoard (b : Board) : Prop := b.length = 8 ∧ ∀ row ∈ b, row.length = 8

instance (b : Board) : Decidable (wfBoard b) := by
  unfold wfBoard; exact instDecidableAnd

/-- Coordinate within the 8x8 grid. -/
def inB (i : Int) : Prop := 0 ≤ i ∧ i ≤ 7

instance (i : Int) : Decidable (inB i) := by
  unfold inB; exact instDecidableAnd

/-- Shared game-session state: board, game state string, current player
string, exactly the attributes of both Python classes. -/
structure Game where
  board : Board
  game_state : String
  current_player : String
deriving DecidableEq

/-- Starting board of both engines. -/
def initialBoard : Board :=
  [[1, 2, 3, 4, 5, 3, 2, 1],
   [6, 6, 6, 6, 6, 6, 6, 6],
   [0, 0, 0, 0, 0, 0, 0, 0],
   [0, 0, 0, 0, 0, 0, 0, 0],
   [0, 0, 0, 0, 0, 0, 0, 0],
   [0, 0, 0, 0, 0, 0, 0, 0],
   [60, 60, 60, 60, 60, 60, 60, 60],
   [10, 20, 30, 40, 50, 30, 20, 10]]

/-- Initial session: starting board, unfinished, white to move. -/
def initGame : Game := ⟨initialBoard, "UNFINISHED", "WHITE"⟩

/-- Turn alternation, identical in both engines. -/
def otherPlayer (p : String) : String := if p = "WHITE" then "BLACK" else "WHITE"

/-- Offsets used by the both-kings neighbourhood scan, in source order
(center first); the list is literally identical in both files. -/
def nbhdOffsets : List (Int × Int) :=
  [(0, 0), (1, 0), (-1, 0), (0, 1), (0, -1), (1, 1), (1, -1), (-1, 1), (-1, -1)]

/-- Pieces gathered around a destination by the atomic-move check of both
engines: raw Python indexing with IndexError skipped, so negative
offsets wrap to the opposite board edge instead of being skipped. -/
def guardList (b : Board) (dr dc : Int) : List Nat :=
  nbhdOffsets.filterMap (fun o => pyGet b (dr + o.1) (dc + o.2))

/-- Path-scanning loop body shared by the horizontal/vertical and diagonal
blocking checks of both engines: starting just after the source, test n
squares stepping by (sr, sc); any occupied square fails. -/
def scanPath (b : Board) (sr sc : Int) : Int → Int → Nat → Bool
  | _, _, 0 => true
  | r, c, Nat.succ n => if cellI b r c ≠ 0 then false else scanPath b sr sc (r + sr) (c + sc) n

namespace ChessLogic

/-- AtomicChessGame._check_if_valid_player: threshold test on the piece
code against the current player. -/
def validPlayer (player : String) (piece : Nat) : Bool :=
  if player = "BLACK" ∧ 6 < piece then false
  else if player = "WHITE" ∧ piece < 10 then false
  else true

/-- AtomicChessGame._check_if_valid_atomic_move: kings may not capture, and
a capture whose gathered neighbourhood holds both kings is rejected. -/
def validAtomic (b : Board) (piece : Nat) (dc dr : Int) : Bool :=
  if (piece = 5 ∨ piece = 50) ∧ cellI b dr dc ≠ 0 then false
  else if cellI b dr dc ≠ 0 ∧ 5 ∈ guardList b dr dc ∧ 50 ∈ guardList b dr dc then false
  else true

/-- AtomicChessGame._validate_standard_move: destination bounds and the
no-self-capture rules. -/
def validStandard (b : Board) (piece : Nat) (cc cr dc dr : Int) : Bool :=
  if dc < 0 ∨ 8 ≤ dc ∨ dr < 0 ∨ 8 ≤ dr then false
  else if piece < 10 ∧ 0 < cellI b dr dc ∧ cellI b dr dc < 10 then false
  else if 10 ≤ piece ∧ 10 ≤ cellI b dr dc then false
  else true

/-- AtomicChessGame._check_horizontal_vertical_move: four directional while
loops; a direction that fits no branch falls through to True. -/
def checkHV (b : Board) (cc cr dc dr : Int) : Bool :=
  if cr = dr ∧ cc < dc then scanPath b 0 1 cr (cc + 1) ((dc - cc).toNat - 1)
  else if cr = dr ∧ dc < cc then scanPath b 0 (-1) cr (cc - 1) ((cc - dc).toNat - 1)
  else if cc = dc ∧ dr < cr then scanPath b (-1) 0 (cr - 1) cc ((cr - dr).toNat - 1)
  else if cc = dc ∧ cr < dr then scanPath b 1 0 (cr + 1) cc ((dr - cr).toNat - 1)
  else true

/-- AtomicChessGame._check_diagonal_move: four diagonal while loops keyed on
the row distance; non-diagonal arguments fall through to True. -/
def checkDiag (b : Board) (cc cr dc dr : Int) : Bool :=
  if dr < cr ∧ cc < dc then scanPath b (-1) 1 (cr - 1) (cc + 1) ((cr - dr).toNat - 1)
  else if dr < cr ∧ dc < cc then scanPath b (-1) (-1) (cr - 1) (cc - 1) ((cr - dr).toNat - 1)
  else if cr < dr ∧ cc < dc then scanPath b 1 1 (cr + 1) (cc + 1) ((dr - cr).toNat - 1)
  else if cr < dr ∧ dc < cc then scanPath b 1 (-1) (cr + 1) (cc - 1) ((dr - cr).toNat - 1)
  else true

/-- AtomicChessGame._is_valid_rook_move. -/
def rookMove (b : Board) (cc cr dc dr : Int) : Bool :=
  if cr ≠ dr ∧ cc ≠ dc then false else checkHV b cc cr dc dr

/-- AtomicChessGame._is_valid_bishop_move. -/
def bishopMove (b : Board) (cc cr dc dr : Int) : Bool :=
  if (dr - cr).natAbs ≠ (dc - cc).natAbs then false else checkDiag b cc cr dc dr

/-- AtomicChessGame._is_valid_queen_move. -/
def queenMove (b : Board) (cc cr dc dr : Int) : Bool :=
  rookMove b cc cr dc dr || bishopMove b cc cr dc dr

/-- AtomicChessGame._is_valid_king_move. -/
def kingMove (cc cr dc dr : Int) : Bool :=
  decide ((dr - cr).natAbs ≤ 1 ∧ (dc - cc).natAbs ≤ 1 ∧ 0 < (dr - cr).natAbs + (dc - cc).natAbs)

/-- AtomicChessGame._is_valid_knight_move. -/
def knightMove (cc cr dc dr : Int) : Bool :=
  decide (((dr - cr).natAbs = 2 ∧ (dc - cc).natAbs = 1) ∨ ((dr - cr).natAbs = 1 ∧ (dc - cc).natAbs = 2))

/-- AtomicChessGame._is_valid_pawn_move: forward only; one-column moves are
captures of exactly one row; straight moves need an empty target, with a
two-row allowance from the start row (no intermediate-square test in the
source). -/
def pawnMove (b : Board) (piece : Nat) (cc cr dc dr : Int) : Bool :=
  if piece = 6 ∧ dr ≤ cr then false
  else if piece = 60 ∧ cr ≤ dr then false
  else if (dc - cc).natAbs = 1 then
    (if cellI b dr dc = 0 then false else decide ((dr - cr).natAbs = 1))
  else if cc = dc then
    (if cellI b dr dc ≠ 0 then false
     else if piece = 6 ∧ cr = 1 ∧ (dr - cr).natAbs ≤ 2 then true
     else if piece = 60 ∧ cr = 6 ∧ (dr - cr).natAbs ≤ 2 then true
     else decide ((dr - cr).natAbs = 1))
  else false

/-- AtomicChessGame.validate_move: standard checks, empty source, ownership,
atomic rules, then per-piece dispatch in source order. -/
def validateMove (b : Board) (player : String) (piece : Nat) (cr cc dr dc : Int) : Bool :=
  if ¬ validStandard b piece cc cr dc dr then false
  else if piece = 0 then false
  else if ¬ validPlayer player piece then false
  else if ¬ validAtomic b piece dc dr then false
  else if piece = 1 ∨ piece = 10 then rookMove b cc cr dc dr
  else if piece = 3 ∨ piece = 30 then bishopMove b cc cr dc dr
  else if piece = 4 ∨ piece = 40 then queenMove b cc cr dc dr
  else if piece = 5 ∨ piece = 50 then kingMove cc cr dc dr
  else if piece = 2 ∨ piece = 20 then knightMove cc cr dc dr
  else if piece = 6 ∨ piece = 60 then pawnMove b piece cc cr dc dr
  else false

/-- Explosion squares of AtomicChessGame.execute_atomic_explosion, in
source order: the eight neighbours plus the centre. -/
def explosionPositions (er ec : Int) : List (Int × Int) :=
  [(er - 1, ec - 1), (er - 1, ec), (er - 1, ec + 1),
   (er, ec - 1), (er, ec), (er, ec + 1),
   (er + 1, ec - 1), (er + 1, ec), (er + 1, ec + 1)]

/-- Body of execute_atomic_explosion: clear every listed square that is on
the board (explicit is_valid_position bounds check) and holds neither a
pawn nor an empty cell. -/
def explodeAux (b : Board) : List (Int × Int) → Board
  | [] => b
  | p :: rest =>
    explodeAux
      (if 0 ≤ p.1 ∧ p.1 < 8 ∧ 0 ≤ p.2 ∧ p.2 < 8 ∧
          ¬(cellI b p.1 p.2 = 6 ∨ cellI b p.1 p.2 = 60 ∨ cellI b p.1 p.2 = 0)
       then pySet b p.1 p.2 0 else b) rest

/-- AtomicChessGame.execute_atomic_explosion. -/
def executeExplosion (b : Board) (er ec : Int) : Board :=
  explodeAux b (explosionPositions er ec)

/-- King scan of AtomicChessGame.check_if_king_dead: nested loops over the
fixed 8x8 range looking for the given king code. -/
def kingScan (b : Board) (k : Nat) : Bool :=
  (List.range 8).any (fun r => (List.range 8).any (fun c => cellI b (Int.ofNat r) (Int.ofNat c) == k))

/-- AtomicChessGame.check_if_king_dead as a game-state function: both kings
absent makes the current player (the mover, since the player has not yet
been toggled) lose; one absent king gives the other side the win. -/
def checkIfKingDead (b : Board) (player gs : String) : String :=
  if kingScan b 5 = false ∧ kingScan b 50 = false then
    (if player = "WHITE" then "BLACK_WON" else "WHITE_WON")
  else if kingScan b 5 = false then "WHITE_WON"
  else if kingScan b 50 = false then "BLACK_WON"
  else gs

/-- Board produced by the mutation part of AtomicChessGame.make_move:
clear the source; on capture clear the destination and run the explosion,
otherwise place the piece on the destination. -/
def newBoard (b : Board) (piece : Nat) (cr cc dr dc : Int) : Board :=
  if cellI (pySet b cr cc 0) dr dc ≠ 0 then
    executeExplosion (pySet (pySet b cr cc 0) dr dc 0) dr dc
  else pySet (pySet b cr cc 0) dr dc piece

/-- Successful-move state update of AtomicChessGame.make_move: mutate the
board, recompute the game state, toggle the player. -/
def execMove (g : Game) (piece : Nat) (cr cc dr dc : Int) : Game :=
  { board := newBoard g.board piece cr cc dr dc
    game_state := checkIfKingDead (newBoard g.board piece cr cc dr dc) g.current_player g.game_state
    current_player := otherPlayer g.current_player }

/-- AtomicChessGame.make_move on already-parsed coordinates: read the source
piece, validate, and either mutate or return False unchanged.  Note the
source has no terminal-state check. -/
def makeMove (g : Game) (cr cc dr dc : Int) : Bool × Game :=
  if validateMove g.board g.current_player (cellI g.board cr cc) cr cc dr dc then
    (true, execMove g (cellI g.board cr cc) cr cc dr dc)
  else (false, g)

end ChessLogic

namespace ChessVar

/-- ChessVar.check_if_valid_player: returns False for a foreign piece and
otherwise falls off the end returning None; with an empty source square
and Black to move neither branch fires. -/
def checkPlayer (player : String) (piece : Nat) : Option Bool :=
  if player = "BLACK" ∧ 6 < piece then some false
  else if player = "WHITE" ∧ piece < 10 then some false
  else none

/-- ChessVar.check_if_valid_atomic_move: same rules as the ChessLogic
version but returning False or None. -/
def checkAtomic (b : Board) (piece : Nat) (dc dr : Int) : Option Bool :=
  if (piece = 5 ∨ piece = 50) ∧ cellI b dr dc ≠ 0 then some false
  else if cellI b dr dc ≠ 0 ∧ 5 ∈ guardList b dr dc ∧ 50 ∈ guardList b dr dc then some false
  else none

/-- ChessVar.check_horizontal_vertical_move: the loops are verbatim those
of ChessLogic.checkHV; only the fall-through value differs (None instead
of True), and callers compare against False either way. -/
def checkHV (b : Board) (cc cr dc dr : Int) : Option Bool :=
  if ChessLogic.checkHV b cc cr dc dr then none else some false

/-- ChessVar.check_diagonal_move, likewise verbatim ChessLogic.checkDiag
with a None fall-through. -/
def checkDiag (b : Board) (cc cr dc dr : Int) : Option Bool :=
  if ChessLogic.checkDiag b cc cr dc dr then none else some false

/-- ChessVar.check_if_valid_chess_move: one monolithic sequence of early
False returns in source order; reaching the end returns None.  Note the
bounds test only rejects a column above 7 or a negative row, the pawn
double-step allowance keys on any same pawn code appearing in row 1 or
row 6, and no pawn rule bounds the column distance of a capture. -/
def checkChessMove (b : Board) (piece : Nat) (cc cr dc dr : Int) : Option Bool :=
  if 7 < dc ∨ dr < 0 then some false
  else if piece < 10 ∧ 0 < cellI b dr dc ∧ cellI b dr dc < 10 then some false
  else if 10 ≤ piece ∧ 10 ≤ cellI b dr dc then some false
  else if (piece = 1 ∨ piece = 10) ∧ cr ≠ dr ∧ cc ≠ dc then some false
  else if (piece = 1 ∨ piece = 10) ∧ checkHV b cc cr dc dr = some false then some false
  else if (piece = 2 ∨ piece = 20) ∧
      ¬(((cr - dr).natAbs = 1 ∧ (cc - dc).natAbs = 2) ∨
        ((cr - dr).natAbs = 2 ∧ (cc - dc).natAbs = 1)) then some false
  else if (piece = 3 ∨ piece = 30) ∧ (cr - dr).natAbs ≠ (cc - dc).natAbs then some false
  else if (piece = 3 ∨ piece = 30) ∧ checkDiag b cc cr dc dr = some false then some false
  else if (piece = 4 ∨ piece = 40) ∧
      (¬((cr - dr).natAbs = (cc - dc).natAbs ∨ cr = dr ∨ cc = dc) ∨
       ((cr = dr ∨ cc = dc) ∧ checkHV b cc cr dc dr = some false) ∨
       ((cr - dr).natAbs = (cc - dc).natAbs ∧ checkDiag b cc cr dc dr = some false)) then some false
  else if (piece = 5 ∨ piece = 50) ∧ (1 < (cr - dr).natAbs ∨ 1 < (cc - dc).natAbs) then some false
  else if piece = 6 ∧ dr ≤ cr then some false
  else if piece = 60 ∧ cr ≤ dr then some false
  else if (piece = 6 ∨ piece = 60) ∧ cellI b dr dc = 0 ∧ cc ≠ dc then some false
  else if (piece = 6 ∨ piece = 60) ∧ cellI b dr dc ≠ 0 ∧ cc = dc then some false
  else if (piece = 6 ∨ piece = 60) ∧ (piece ∈ b.getD 1 [] ∨ piece ∈ b.getD 6 []) then
    (if 2 < (cr - dr).natAbs then some false else none)
  else if (piece = 6 ∨ piece = 60) ∧ piece ∉ b.getD 1 [] ∧ piece ∉ b.getD 6 [] then
    (if 1 < (cr - dr).natAbs then some false else none)
  else none

/-- Explosion offsets of ChessVar.make_move, in source order (the centre
is cleared separately before the loop). -/
def explodeOffsets : List (Int × Int) :=
  [(1, 0), (-1, 0), (0, 1), (0, -1), (1, 1), (1, -1), (-1, 1), (-1, -1)]

/-- Explosion loop of ChessVar.make_move: raw Python indexing guarded only
by try/except IndexError, so an offset that goes negative wraps to the
opposite edge and is cleared there; only a raised IndexError (index past
the end) is skipped.  Pawns survive. -/
def explodeAux (b : Board) (dr dc : Int) : List (Int × Int) → Board
  | [] => b
  | o :: rest =>
    explodeAux
      (match pyGet b (dr + o.1) (dc + o.2) with
       | none => b
       | some v => if v ≠ 6 ∧ v ≠ 60 then pySet b (dr + o.1) (dc + o.2) 0 else b)
      dr dc rest

/-- ChessVar.check_if_king_dead: if no black king anywhere White has won,
else if no white king anywhere Black has won (note: not mover-relative). -/
def kingDead (b : Board) (gs : String) : String :=
  if b.any (fun row => row.contains 5) = false then "WHITE_WON"
  else if b.any (fun row => row.contains 50) = false then "BLACK_WON"
  else gs

/-- Board produced by the mutation part of ChessVar.make_move. -/
def newBoard (b : Board) (piece : Nat) (cr cc dr dc : Int) : Board :=
  if cellI (pySet b cr cc 0) dr dc ≠ 0 then
    explodeAux (pySet (pySet b cr cc 0) dr dc 0) dr dc explodeOffsets
  else pySet (pySet b cr cc 0) dr dc piece

/-- Successful-move state update of ChessVar.make_move. -/
def execMove (g : Game) (piece : Nat) (cr cc dr dc : Int) : Game :=
  { board := newBoard g.board piece cr cc dr dc
    game_state := kingDead (newBoard g.board piece cr cc dr dc) g.game_state
    current_player := otherPlayer g.current_player }

/-- ChessVar.make_move on already-parsed coordinates: the four guards in
source order (player, atomic, chess rules, then the terminal-state check),
each comparing against False; then the mutation. -/
def makeMove (g : Game) (cr cc dr dc : Int) : Bool × Game :=
  if checkPlayer g.current_player (cellI g.board cr cc) = some false then (false, g)
  else if checkAtomic g.board (cellI g.board cr cc) dc dr = some false then (false, g)
  else if checkChessMove g.board (cellI g.board cr cc) cc cr dc dr = some false then (false, g)
  else if g.game_state ≠ "UNFINISHED" then (false, g)
  else (true, execMove g (cellI g.board cr cc) cr cc dr dc)

end ChessVar

/-- Clipped 3x3 neighbourhood of the destination, following the claim
wording: out-of-range offsets are skipped, in-range ones contribute the
value of the cell on the pre-move board.  This is the claim-side notion
compared against the engines' guardList, which wraps instead of
clipping. -/
def specClippedNbhd (b : Board) (dr dc : Int) : List Nat :=
  nbhdOffsets.filterMap (fun o =>
    if 0 ≤ dr + o.1 ∧ dr + o.1 < 8 ∧ 0 ≤ dc + o.2 ∧ dc + o.2 < 8 then
      some (cellI b (dr + o.1) (dc + o.2))
    else none)

/-- Occupancy indicator of a single cell value. -/
def cZ (p : Nat) : Nat := if p = 0 then 0 else 1

/-- Number of occupied cells of one row. -/
def countRow (row : List Nat) : Nat := row.countP (fun p => !(p == 0))

/-- Number of occupied cells of a board. -/
def countPieces (b : Board) : Nat := (b.map countRow).sum

/-- Position after White plays knight g1 to f3 from the start (ChessLogic). -/
def clGame1 : Game := (ChessLogic.makeMove initGame 7 6 5 5).2

/-- Then Black plays pawn a7 to a6. -/
def clGame2 : Game := (ChessLogic.makeMove clGame1 1 0 2 0).2

/-- Then White plays knight f3 to e5. -/
def clGame3 : Game := (ChessLogic.makeMove clGame2 5 5 3 4).2

/-- Then Black plays pawn a6 to a5. -/
def clGame4 : Game := (ChessLogic.makeMove clGame3 2 0 3 0).2

/-- Then White plays knight e5 takes f7: the explosion at f7 destroys the
black king, so the game state becomes WHITE_WON. -/
def clGame5 : Game := (ChessLogic.makeMove clGame4 3 4 1 5).2

/-- Position after White plays knight b1 to c3 from the start (ChessVar):
Black to move. -/
def cvGame1 : Game := (ChessVar.makeMove initGame 7 1 5 2).2

/-- Position with a black rook on a8, a black king on d5, a white rook on
a4, a white king on g4 and a white knight on a1: White can capture the
rook on a8, and the explosion offsets that leave the top edge wrap to
row 7. -/
def wrapCaptureBoard : Board :=
  [[1, 0, 0, 0, 0, 0, 0, 0],
   [0, 0, 0, 0, 0, 0, 0, 0],
   [0, 0, 0, 0, 0, 0, 0, 0],
   [0, 0, 0, 5, 0, 0, 0, 0],
   [10, 0, 0, 0, 0, 0, 50, 0],
   [0, 0, 0, 0, 0, 0, 0, 0],
   [0, 0, 0, 0, 0, 0, 0, 0],
   [20, 0, 0, 0, 0, 0, 0, 0]]

/-- Session for the wrap-around capture scenario. -/
def wrapCaptureGame : Game := ⟨wrapCaptureBoard, "UNFINISHED", "WHITE"⟩

/-- Position whose only pieces are a black king on d5, a black pawn on e4
guarded by a white king on f3, and a white pawn on e2: capturing on e4
would blow up both kings. -/
def bothKingsBoard : Board :=
  [[0, 0, 0, 0, 0, 0, 0, 0],
   [0, 0, 0, 0, 0, 0, 0, 0],
   [0, 0, 0, 0, 0, 0, 0, 0],
   [0, 0, 0, 5, 0, 0, 0, 0],
   [0, 0, 0, 0, 6, 0, 0, 0],
   [0, 0, 0, 0, 0, 50, 0, 0],
   [0, 0, 0, 0, 10, 0, 0, 0],
   [0, 0, 0, 0, 0, 0, 0, 0]]

/-- Session for the double-kill-guard scenario. -/
def bothKingsGame : Game := ⟨bothKingsBoard, "UNFINISHED", "WHITE"⟩

/-- Start position with a white knight parked on a6 (and removed from b1):
the black pawn on a7 has its double-step square a5 free but the
intermediate square a6 occupied. -/
def blockedPawnBoard : Board :=
  [[1, 2, 3, 4, 5, 3, 2, 1],
   [6, 6, 6, 6, 6, 6, 6, 6],
   [20, 0, 0, 0, 0, 0, 0, 0],
   [0, 0, 0, 0, 0, 0, 0, 0],
   [0, 0, 0, 0, 0, 0, 0, 0],
   [0, 0, 0, 0, 0, 0, 0, 0],
   [60, 60, 60, 60, 60, 60, 60, 60],
   [10, 0, 30, 40, 50, 30, 20, 10]]

/-- Session for the blocked double-step scenario, Black to move. -/
def blockedPawnGame : Game := ⟨blockedPawnBoard, "UNFINISHED", "BLACK"⟩

/-- Start position with the black rook moved from a8 to b4: the white pawn
on a2 faces a capture target two rows ahead and one column aside. -/
def widePawnCaptureBoard : Board :=
  [[0, 2, 3, 4, 5, 3, 2, 1],
   [6, 6, 6, 6, 6, 6, 6, 6],
   [0, 0, 0, 0, 0, 0, 0, 0],
   [0, 0, 0, 0, 0, 0, 0, 0],
   [0, 1, 0, 0, 0, 0, 0, 0],
   [0, 0, 0, 0, 0, 0, 0, 0],
   [60, 60, 60, 60, 60, 60, 60, 60],
   [10, 20, 30, 40, 50, 30, 20, 10]]

/-- Session for the two-row pawn capture scenario. -/
def widePawnCaptureGame : Game := ⟨widePawnCaptureBoard, "UNFINISHED", "WHITE"⟩

/-- Position whose only piece is a white rook on a4, no kings at all. -/
def loneRookBoard : Board :=
  [[0, 0, 0, 0, 0, 0, 0, 0],
   [0, 0, 0, 0, 0, 0, 0, 0],
   [0, 0, 0, 0, 0, 0, 0, 0],
   [0, 0, 0, 0, 0, 0, 0, 0],
   [10, 0, 0, 0, 0, 0, 0, 0],
   [0, 0, 0, 0, 0, 0, 0, 0],
   [0, 0, 0, 0, 0, 0, 0, 0],
   [0, 0, 0, 0, 0, 0, 0, 0]]

/-- Session for the double-king-absence scenario. -/
def loneRookGame : Game := ⟨loneRookBoard, "UNFINISHED", "WHITE"⟩

lemma pyIdx_inB8 {i : Int} (h0 : 0 ≤ i) (h8 : i < 8) : pyIdx i 8 = some i.toNat := by
  simp only [pyIdx]
  rw [if_pos ⟨h0, by omega⟩]

lemma pyIdx_some_lt {i : Int} {len j : Nat} (h : pyIdx i len = some j) : j < len := by
  unfold pyIdx at h
  split at h
  · rename_i hc
    injection h with h
    omega
  · split at h
    · rename_i hc
      injection h with h
      omega
    · exact absurd h (by simp)

lemma wf_row_len {b : Board} (hwf : wfBoard b) {ri : Nat} (hri : ri < b.length) :
    (b.getD ri []).length = 8 := by
  rw [List.getD_eq_getElem b [] hri]
  exact hwf.2 _ (List.getElem_mem hri)

lemma pyGet_inB {b : Board} (hwf : wfBoard b) {r c : Int}
    (hr0 : 0 ≤ r) (hr8 : r < 8) (hc0 : 0 ≤ c) (hc8 : c < 8) :
    pyGet b r c = some ((b.getD r.toNat []).getD c.toNat 0) := by
  have hlen : b.length = 8 := hwf.1
  have hrlt : r.toNat < b.length := by omega
  have hrow : b.getD r.toNat [] = b[r.toNat] := List.getD_eq_getElem b [] hrlt
  have hrl : (b.getD r.toNat []).length = 8 := wf_row_len hwf hrlt
  have hclt : c.toNat < (b.getD r.toNat []).length := by omega
  simp only [pyGet, hlen, pyIdx_inB8 hr0 hr8, Option.some_bind,
    List.getElem?_eq_getElem hrlt, ← hrow, hrl, pyIdx_inB8 hc0 hc8,
    List.getElem?_eq_getElem hclt, List.getD_eq_getElem _ 0 hclt]

lemma cellI_inB {b : Board} (hwf : wfBoard b) {r c : Int}
    (hr0 : 0 ≤ r) (hr8 : r < 8) (hc0 : 0 ≤ c) (hc8 : c < 8) :
    cellI b r c = (b.getD r.toNat []).getD c.toNat 0 := by
  simp [cellI, pyGet_inB hwf hr0 hr8 hc0 hc8]

lemma pySet_inB {b : Board} (hwf : wfBoard b) {r c : Int} (v : Nat)
    (hr0 : 0 ≤ r) (hr8 : r < 8) (hc0 : 0 ≤ c) (hc8 : c < 8) :
    pySet b r c v = b.set r.toNat ((b.getD r.toNat []).set c.toNat v) := by
  have hlen : b.length = 8 := hwf.1
  have hrlt : r.toNat < b.length := by omega
  have hrl : (b.getD r.toNat []).length = 8 := wf_row_len hwf hrlt
  simp only [pySet, hlen, pyIdx_inB8 hr0 hr8, hrl, pyIdx_inB8 hc0 hc8]

lemma wf_pySet {b : Board} (hwf : wfBoard b) (r c : Int) (v : Nat) :
    wfBoard (pySet b r c v) := by
  unfold pySet
  split
  · exact hwf
  · rename_i ri hri
    split
    · exact hwf
    · rename_i ci hci
      constructor
      · rw [List.length_set]; exact hwf.1
      · intro row hrow
        rcases List.mem_or_eq_of_mem_set hrow with h | h
        · exact hwf.2 _ h
        · subst h
          rw [List.length_set]
          exact wf_row_len hwf (pyIdx_some_lt hri)

lemma getD_set_same {α : Type} {l : List α} {i : Nat} (a d : α) (h : i < l.length) :
    (l.set i a).getD i d = a := by
  rw [List.getD_eq_getElem?_getD, List.getElem?_set_eq_of_lt _ h, Option.getD_some]

lemma getD_set_other {α : Type} {l : List α} {i j : Nat} (a d : α) (h : i ≠ j) :
    (l.set i a).getD j d = l.getD j d := by
  rw [List.getD_eq_getElem?_getD, List.getElem?_set_ne h, ← List.getD_eq_getElem?_getD]

lemma pyGet_row_none {b : Board} {r : Int} (c : Int) (h : pyIdx r b.length = none) :
    pyGet b r c = none := by
  unfold pyGet
  rw [h]
  rfl

lemma pyGet_col_none {b : Board} {r c : Int} {ri : Nat}
    (hri : pyIdx r b.length = some ri) (hci : pyIdx c (b.getD ri []).length = none) :
    pyGet b r c = none := by
  have hrlt : ri < b.length := pyIdx_some_lt hri
  have hrow : b.getD ri [] = b[ri] := List.getD_eq_getElem b [] hrlt
  unfold pyGet
  rw [hri]
  simp only [Option.some_bind]
  rw [List.getElem?_eq_getElem hrlt]
  simp only [Option.some_bind]
  rw [← hrow, hci]
  rfl

lemma pyGet_resolved {b : Board} {r c : Int} {ri ci : Nat}
    (hri : pyIdx r b.length = some ri) (hci : pyIdx c (b.getD ri []).length = some ci) :
    pyGet b r c = (b.getD ri [])[ci]? := by
  have hrlt : ri < b.length := pyIdx_some_lt hri
  have hrow : b.getD ri [] = b[ri] := List.getD_eq_getElem b [] hrlt
  unfold pyGet
  rw [hri]
  simp only [Option.some_bind]
  rw [List.getElem?_eq_getElem hrlt]
  simp only [Option.some_bind]
  rw [← hrow, hci]
  simp only [Option.some_bind]

lemma cellI_pySet_same {b : Board} (hwf : wfBoard b) {r c : Int} (v : Nat)
    (hr0 : 0 ≤ r) (hr8 : r < 8) (hc0 : 0 ≤ c) (hc8 : c < 8) :
    cellI (pySet b r c v) r c = v := by
  have hrlt : r.toNat < b.length := by rw [hwf.1]; omega
  have hclt : c.toNat < (b.getD r.toNat []).length := by
    rw [wf_row_len hwf hrlt]; omega
  rw [cellI_inB (wf_pySet hwf r c v) hr0 hr8 hc0 hc8, pySet_inB hwf v hr0 hr8 hc0 hc8,
    getD_set_same _ _ hrlt, getD_set_same _ _ hclt]

lemma cellI_pySet_ne {b : Board} (hwf : wfBoard b) {r c r2 c2 : Int} (v : Nat)
    (hr0 : 0 ≤ r) (hr8 : r < 8) (hc0 : 0 ≤ c) (hc8 : c < 8)
    (hs0 : 0 ≤ r2) (hs8 : r2 < 8) (ht0 : 0 ≤ c2) (ht8 : c2 < 8)
    (hne : r2 ≠ r ∨ c2 ≠ c) :
    cellI (pySet b r c v) r2 c2 = cellI b r2 c2 := by
  have hrlt : r.toNat < b.length := by rw [hwf.1]; omega
  rw [cellI_inB (wf_pySet hwf r c v) hs0 hs8 ht0 ht8, cellI_inB hwf hs0 hs8 ht0 ht8,
    pySet_inB hwf v hr0 hr8 hc0 hc8]
  by_cases hrr : r2.toNat = r.toNat
  · have hreq : r2 = r := by omega
    have hcne : c.toNat ≠ c2.toNat := by
      rcases hne with h | h
      · exact absurd hreq h
      · omega
    rw [hrr, getD_set_same _ _ hrlt, getD_set_other _ _ hcne]
  · have hrne : r.toNat ≠ r2.toNat := fun h => hrr h.symm
    rw [getD_set_other _ _ hrne]

lemma countRow_cons (a : Nat) (l : List Nat) : countRow (a :: l) = cZ a + countRow l := by
  by_cases h : a = 0 <;> simp [countRow, cZ, List.countP_cons, h] <;> omega

lemma countRow_set : ∀ (row : List Nat) (ci : Nat) (v : Nat), ci < row.length →
    countRow (row.set ci v) + cZ (row.getD ci 0) = countRow row + cZ v := by
  intro row
  induction row with
  | nil => intro ci v h; simp at h
  | cons a l ih =>
    intro ci v h
    cases ci with
    | zero =>
      simp only [List.set, List.getD_cons_zero, countRow_cons]
      omega
    | succ n =>
      have hn : n < l.length := by simpa using h
      have := ih n v hn
      simp only [List.set, List.getD_cons_succ, countRow_cons]
      omega

lemma sum_set : ∀ (l : List Nat) (i : Nat) (x : Nat), i < l.length →
    (l.set i x).sum + l.getD i 0 = l.sum + x := by
  intro l
  induction l with
  | nil => intro i x h; simp at h
  | cons a t ih =>
    intro i x h
    cases i with
    | zero => simp [List.set]; omega
    | succ n =>
      have hn : n < t.length := by simpa using h
      have := ih n x hn
      simp only [List.set, List.sum_cons, List.getD_cons_succ]
      omega

lemma map_countRow_getD {b : Board} {ri : Nat} (h : ri < b.length) :
    (b.map countRow).getD ri 0 = countRow (b.getD ri []) := by
  have h2 : ri < (b.map countRow).length := by simpa using h
  rw [List.getD_eq_getElem _ 0 h2, List.getD_eq_getElem b [] h, List.getElem_map]

lemma count_pySet (b : Board) (r c : Int) (v : Nat) :
    countPieces (pySet b r c v) + cZ (cellI b r c) = countPieces b + cZ v
    ∨ (pySet b r c v = b ∧ cellI b r c = 0) := by
  unfold pySet
  split
  · rename_i hnone
    right
    refine ⟨rfl, ?_⟩
    rw [cellI, pyGet_row_none c hnone]
    rfl
  · rename_i ri hri
    split
    · rename_i hcnone
      right
      refine ⟨rfl, ?_⟩
      rw [cellI, pyGet_col_none hri hcnone]
      rfl
    · rename_i ci hci
      left
      have hrlt : ri < b.length := pyIdx_some_lt hri
      have hclt : ci < (b.getD ri []).length := pyIdx_some_lt hci
      have hcell : cellI b r c = (b.getD ri []).getD ci 0 := by
        rw [cellI, pyGet_resolved hri hci, List.getElem?_eq_getElem hclt,
          Option.getD_some, List.getD_eq_getElem _ 0 hclt]
      have hmap : countPieces (b.set ri ((b.getD ri []).set ci v)) =
          ((b.map countRow).set ri (countRow ((b.getD ri []).set ci v))).sum := by
        simp [countPieces, List.map_set]
      have hsum := sum_set (b.map countRow) ri (countRow ((b.getD ri []).set ci v))
        (by simpa using hrlt)
      rw [map_countRow_getD hrlt] at hsum
      have hrowct := countRow_set (b.getD ri []) ci v hclt
      rw [hcell, hmap]
      unfold countPieces at *
      omega

lemma count_pySet_le (b : Board) (r c : Int) (v : Nat) :
    countPieces (pySet b r c v) ≤ countPieces b + cZ v := by
  rcases count_pySet b r c v with h | ⟨h, _⟩
  · have : 0 ≤ cZ (cellI b r c) := Nat.zero_le _
    omega
  · rw [h]; omega

lemma count_pySet_zero (b : Board) (r c : Int) :
    countPieces (pySet b r c 0) + cZ (cellI b r c) = countPieces b := by
  rcases count_pySet b r c 0 with h | ⟨h1, h2⟩
  · simpa [cZ] using h
  · rw [h1, h2]; simp [cZ]

lemma count_clExplodeAux : ∀ (ps : List (Int × Int)) (b : Board),
    countPieces (ChessLogic.explodeAux b ps) ≤ countPieces b := by
  intro ps
  induction ps with
  | nil => intro b; simp [ChessLogic.explodeAux]
  | cons p rest ih =>
    intro b
    simp only [ChessLogic.explodeAux]
    refine le_trans (ih _) ?_
    split
    · have := count_pySet_le b p.1 p.2 0
      simpa [cZ] using this
    · exact le_refl _

lemma count_cvExplodeAux : ∀ (ps : List (Int × Int)) (b : Board) (dr dc : Int),
    countPieces (ChessVar.explodeAux b dr dc ps) ≤ countPieces b := by
  intro ps
  induction ps with
  | nil => intro b dr dc; simp [ChessVar.explodeAux]
  | cons o rest ih =>
    intro b dr dc
    simp only [ChessVar.explodeAux]
    refine le_trans (ih _ _ _) ?_
    split
    · exact le_refl _
    · split
      · have := count_pySet_le b (dr + o.1) (dc + o.2) 0
        simpa [cZ] using this
      · exact le_refl _

lemma cl_makeMove_rejected (g : Game) (cr cc dr dc : Int)
    (h : (ChessLogic.makeMove g cr cc dr dc).1 = false) :
    (ChessLogic.makeMove g cr cc dr dc).2 = g := by
  unfold ChessLogic.makeMove at h ⊢
  split_ifs at h ⊢ <;> rfl

lemma cv_makeMove_rejected (g : Game) (cr cc dr dc : Int)
    (h : (ChessVar.makeMove g cr cc dr dc).1 = false) :
    (ChessVar.makeMove g cr cc dr dc).2 = g := by
  unfold ChessVar.makeMove at h ⊢
  split_ifs at h ⊢ <;> rfl

lemma cl_success (g : Game) (cr cc dr dc : Int)
    (h : (ChessLogic.makeMove g cr cc dr dc).1 = true) :
    ChessLogic.makeMove g cr cc dr dc =
      (true, ChessLogic.execMove g (cellI g.board cr cc) cr cc dr dc) := by
  unfold ChessLogic.makeMove at h ⊢
  split_ifs at h ⊢ <;> rfl

lemma cv_success (g : Game) (cr cc dr dc : Int)
    (h : (ChessVar.makeMove g cr cc dr dc).1 = true) :
    ChessVar.makeMove g cr cc dr dc =
      (true, ChessVar.execMove g (cellI g.board cr cc) cr cc dr dc) := by
  unfold ChessVar.makeMove at h ⊢
  split_ifs at h ⊢ <;> rfl

lemma guard_of_clipped {b : Board} (hwf : wfBoard b) {dr dc : Int} {x : Nat}
    (hx : x ∈ specClippedNbhd b dr dc) : x ∈ guardList b dr dc := by
  rw [specClippedNbhd, List.mem_filterMap] at hx
  obtain ⟨o, ho, hfo⟩ := hx
  rw [guardList, List.mem_filterMap]
  refine ⟨o, ho, ?_⟩
  split at hfo
  · rename_i hcond
    injection hfo with hfo
    rw [pyGet_inB hwf hcond.1 hcond.2.1 hcond.2.2.1 hcond.2.2.2, ← hfo,
      cellI_inB hwf hcond.1 hcond.2.1 hcond.2.2.1 hcond.2.2.2]
  · exact absurd hfo (by simp)

lemma cl_validAtomic_false (b : Board) (piece : Nat) (dc dr : Int)
    (hOcc : cellI b dr dc ≠ 0)
    (h5 : 5 ∈ guardList b dr dc) (h50 : 50 ∈ guardList b dr dc) :
    ChessLogic.validAtomic b piece dc dr = false := by
  unfold ChessLogic.validAtomic
  split_ifs with h1 h2
  · rfl
  · rfl
  · exact absurd ⟨hOcc, h5, h50⟩ h2

lemma cl_validate_false_of_atomic (b : Board) (player : String) (piece : Nat)
    (cr cc dr dc : Int) (h : ChessLogic.validAtomic b piece dc dr = false) :
    ChessLogic.validateMove b player piece cr cc dr dc = false := by
  unfold ChessLogic.validateMove
  by_cases h1 : ¬ ChessLogic.validStandard b piece cc cr dc dr
  · rw [if_pos h1]
  · rw [if_neg h1]
    by_cases h2 : piece = 0
    · rw [if_pos h2]
    · rw [if_neg h2]
      by_cases h3 : ¬ ChessLogic.validPlayer player piece
      · rw [if_pos h3]
      · rw [if_neg h3, if_pos (show ¬ ChessLogic.validAtomic b piece dc dr = true by simp [h])]

lemma cv_checkAtomic_false (b : Board) (piece : Nat) (dc dr : Int)
    (hOcc : cellI b dr dc ≠ 0)
    (h5 : 5 ∈ guardList b dr dc) (h50 : 50 ∈ guardList b dr dc) :
    ChessVar.checkAtomic b piece dc dr = some false := by
  unfold ChessVar.checkAtomic
  split_ifs with h1 h2
  · rfl
  · rfl
  · exact absurd ⟨hOcc, h5, h50⟩ h2

lemma cv_rejected_of_atomic (g : Game) (cr cc dr dc : Int)
    (h : ChessVar.checkAtomic g.board (cellI g.board cr cc) dc dr = some false) :
    ChessVar.makeMove g cr cc dr dc = (false, g) := by
  unfold ChessVar.makeMove
  by_cases h1 : ChessVar.checkPlayer g.current_player (cellI g.board cr cc) = some false
  · rw [if_pos h1]
  · rw [if_neg h1, if_pos h]

lemma cl_count_le (g : Game) (cr cc dr dc : Int) :
    countPieces (ChessLogic.makeMove g cr cc dr dc).2.board ≤ countPieces g.board := by
  have hz := count_pySet_zero g.board cr cc
  unfold ChessLogic.makeMove
  split_ifs with hv
  · show countPieces (ChessLogic.newBoard g.board (cellI g.board cr cc) cr cc dr dc) ≤
      countPieces g.board
    unfold ChessLogic.newBoard
    split_ifs with hcap
    · have h1 := count_clExplodeAux (ChessLogic.explosionPositions dr dc)
        (pySet (pySet g.board cr cc 0) dr dc 0)
      have h2 := count_pySet_le (pySet g.board cr cc 0) dr dc 0
      have he : cZ 0 = 0 := rfl
      unfold ChessLogic.executeExplosion
      omega
    · have h2 := count_pySet_le (pySet g.board cr cc 0) dr dc (cellI g.board cr cc)
      omega
  · exact le_refl _

lemma cv_count_le (g : Game) (cr cc dr dc : Int) :
    countPieces (ChessVar.makeMove g cr cc dr dc).2.board ≤ countPieces g.board := by
  have hz := count_pySet_zero g.board cr cc
  unfold ChessVar.makeMove
  split_ifs with h1 h2 h3 h4
  · exact le_refl _
  · exact le_refl _
  · exact le_refl _
  · exact le_refl _
  · show countPieces (ChessVar.newBoard g.board (cellI g.board cr cc) cr cc dr dc) ≤
      countPieces g.board
    unfold ChessVar.newBoard
    split_ifs with hcap
    · have ha := count_cvExplodeAux ChessVar.explodeOffsets
        (pySet (pySet g.board cr cc 0) dr dc 0) dr dc
      have hb := count_pySet_le (pySet g.board cr cc 0) dr dc 0
      have he : cZ 0 = 0 := rfl
      omega
    · have hb := count_pySet_le (pySet g.board cr cc 0) dr dc (cellI g.board cr cc)
      omega

lemma frame_pySet2 (b : Board) (piece : Nat) (cr cc dr dc : Int)
    (hwf : wfBoard b)
    (hcr0 : 0 ≤ cr) (hcr8 : cr < 8) (hcc0 : 0 ≤ cc) (hcc8 : cc < 8)
    (hdr0 : 0 ≤ dr) (hdr8 : dr < 8) (hdc0 : 0 ≤ dc) (hdc8 : dc < 8) :
    cellI (pySet (pySet b cr cc 0) dr dc piece) dr dc = piece ∧
    (¬(cr = dr ∧ cc = dc) → cellI (pySet (pySet b cr cc 0) dr dc piece) cr cc = 0) ∧
    (∀ r c : Int, inB r → inB c → ¬(r = cr ∧ c = cc) → ¬(r = dr ∧ c = dc) →
      cellI (pySet (pySet b cr cc 0) dr dc piece) r c = cellI b r c) := by
  have hwf1 := wf_pySet hwf cr cc 0
  refine ⟨cellI_pySet_same hwf1 piece hdr0 hdr8 hdc0 hdc8, ?_, ?_⟩
  · intro hne
    have hne2 : cr ≠ dr ∨ cc ≠ dc := by tauto
    rw [cellI_pySet_ne hwf1 piece hdr0 hdr8 hdc0 hdc8 hcr0 hcr8 hcc0 hcc8 hne2]
    exact cellI_pySet_same hwf 0 hcr0 hcr8 hcc0 hcc8
  · intro r c hr hc hner hned
    have h1 : r ≠ dr ∨ c ≠ dc := by tauto
    have h2 : r ≠ cr ∨ c ≠ cc := by tauto
    obtain ⟨hr0, hr7⟩ := hr
    obtain ⟨hc0, hc7⟩ := hc
    rw [cellI_pySet_ne hwf1 piece hdr0 hdr8 hdc0 hdc8 hr0 (by omega) hc0 (by omega) h1,
      cellI_pySet_ne hwf 0 hcr0 hcr8 hcc0 hcc8 hr0 (by omega) hc0 (by omega) h2]

lemma b1_dest_empty {b : Board} (hwf : wfBoard b) {cr cc dr dc : Int}
    (hcr0 : 0 ≤ cr) (hcr8 : cr < 8) (hcc0 : 0 ≤ cc) (hcc8 : cc < 8)
    (hdr0 : 0 ≤ dr) (hdr8 : dr < 8) (hdc0 : 0 ≤ dc) (hdc8 : dc < 8)
    (hEmp : cellI b dr dc = 0) :
    cellI (pySet b cr cc 0) dr dc = 0 := by
  by_cases he : dr = cr ∧ dc = cc
  · rw [he.1, he.2]
    exact cellI_pySet_same hwf 0 hcr0 hcr8 hcc0 hcc8
  · have hne : dr ≠ cr ∨ dc ≠ cc := by tauto
    rw [cellI_pySet_ne hwf 0 hcr0 hcr8 hcc0 hcc8 hdr0 hdr8 hdc0 hdc8 hne]
    exact hEmp

lemma cl_noncapture_board (g : Game) (cr cc dr dc : Int)
    (hwf : wfBoard g.board)
    (hcr0 : 0 ≤ cr) (hcr8 : cr < 8) (hcc0 : 0 ≤ cc) (hcc8 : cc < 8)
    (hdr0 : 0 ≤ dr) (hdr8 : dr < 8) (hdc0 : 0 ≤ dc) (hdc8 : dc < 8)
    (hEmp : cellI g.board dr dc = 0)
    (hOk : (ChessLogic.makeMove g cr cc dr dc).1 = true) :
    (ChessLogic.makeMove g cr cc dr dc).2.board =
      pySet (pySet g.board cr cc 0) dr dc (cellI g.board cr cc) := by
  rw [cl_success g cr cc dr dc hOk]
  show ChessLogic.newBoard g.board (cellI g.board cr cc) cr cc dr dc = _
  unfold ChessLogic.newBoard
  rw [if_neg (by simp [b1_dest_empty hwf hcr0 hcr8 hcc0 hcc8 hdr0 hdr8 hdc0 hdc8 hEmp])]

lemma cv_noncapture_board (g : Game) (cr cc dr dc : Int)
    (hwf : wfBoard g.board)
    (hcr0 : 0 ≤ cr) (hcr8 : cr < 8) (hcc0 : 0 ≤ cc) (hcc8 : cc < 8)
    (hdr0 : 0 ≤ dr) (hdr8 : dr < 8) (hdc0 : 0 ≤ dc) (hdc8 : dc < 8)
    (hEmp : cellI g.board dr dc = 0)
    (hOk : (ChessVar.makeMove g cr cc dr dc).1 = true) :
    (ChessVar.makeMove g cr cc dr dc).2.board =
      pySet (pySet g.board cr cc 0) dr dc (cellI g.board cr cc) := by
  rw [cv_success g cr cc dr dc hOk]
  show ChessVar.newBoard g.board (cellI g.board cr cc) cr cc dr dc = _
  unfold ChessVar.newBoard
  rw [if_neg (by simp [b1_dest_empty hwf hcr0 hcr8 hcc0 hcc8 hdr0 hdr8 hdc0 hdc8 hEmp])]

/-- C2 (rejection atomicity): for either engine, whenever make_move on
coordinates inside the 8x8 grid reports failure, the whole session state
(board, game state, current player) is returned exactly as it was. -/
theorem rejected_move_leaves_state_unchanged (gL gV : Game) (cr cc dr dc : Int)
    (h : inB cr ∧ inB cc ∧ inB dr ∧ inB dc) :
    ((ChessLogic.makeMove gL cr cc dr dc).1 = false →
      (ChessLogic.makeMove gL cr cc dr dc).2 = gL) ∧
    ((ChessVar.makeMove gV cr cc dr dc).1 = false →
      (ChessVar.makeMove gV cr cc dr dc).2 = gV) :=
  ⟨cl_makeMove_rejected gL cr cc dr dc, cv_makeMove_rejected gV cr cc dr dc⟩

/-- Witness for C2: moving from the empty square e4 at the start is
rejected by both engines and the initial session is returned intact. -/
theorem rejected_move_leaves_state_unchanged_witness :
    (ChessLogic.makeMove initGame 4 4 3 4).2 = initGame ∧
    (ChessVar.makeMove initGame 4 4 3 4).2 = initGame :=
  ⟨(rejected_move_leaves_state_unchanged initGame initGame 4 4 3 4 (by decide)).1 (by decide),
   (rejected_move_leaves_state_unchanged initGame initGame 4 4 3 4 (by decide)).2 (by decide)⟩

/-- C4 (double-kill guard): in either engine, a move request onto an
occupied destination whose clipped 3x3 neighbourhood on the pre-move
board holds both kings is rejected with the session unchanged. -/
theorem double_kill_guard_rejects (gL gV : Game) (cr cc dr dc : Int)
    (hwfL : wfBoard gL.board) (hwfV : wfBoard gV.board)
    (hdr : inB dr) (hdc : inB dc)
    (hOccL : cellI gL.board dr dc ≠ 0)
    (h5L : 5 ∈ specClippedNbhd gL.board dr dc)
    (h50L : 50 ∈ specClippedNbhd gL.board dr dc)
    (hOccV : cellI gV.board dr dc ≠ 0)
    (h5V : 5 ∈ specClippedNbhd gV.board dr dc)
    (h50V : 50 ∈ specClippedNbhd gV.board dr dc) :
    ChessLogic.makeMove gL cr cc dr dc = (false, gL) ∧
    ChessVar.makeMove gV cr cc dr dc = (false, gV) := by
  constructor
  · have hat := cl_validAtomic_false gL.board (cellI gL.board cr cc) dc dr hOccL
      (guard_of_clipped hwfL h5L) (guard_of_clipped hwfL h50L)
    have hv := cl_validate_false_of_atomic gL.board gL.current_player
      (cellI gL.board cr cc) cr cc dr dc hat
    unfold ChessLogic.makeMove
    rw [if_neg (by simp [hv])]
  · exact cv_rejected_of_atomic gV cr cc dr dc
      (cv_checkAtomic_false gV.board (cellI gV.board cr cc) dc dr hOccV
        (guard_of_clipped hwfV h5V) (guard_of_clipped hwfV h50V))

/-- Witness for C4: a white pawn advancing onto the occupied square e4
while the two kings stand on d5 and f3 is rejected by both engines. -/
theorem double_kill_guard_rejects_witness :
    ChessLogic.makeMove bothKingsGame 6 4 4 4 = (false, bothKingsGame) ∧
    ChessVar.makeMove bothKingsGame 6 4 4 4 = (false, bothKingsGame) :=
  double_kill_guard_rejects bothKingsGame bothKingsGame 6 4 4 4
    (by decide) (by decide) (by decide) (by decide) (by decide) (by decide)
    (by decide) (by decide) (by decide) (by decide)

/-- C8 (mover forfeits): in AtomicChessGame, after any successful move
that leaves the board without either king, the game state becomes the
win of the opponent of the player who moved. -/
theorem double_king_loss_mover_forfeits (g : Game) (cr cc dr dc : Int)
    (hOk : (ChessLogic.makeMove g cr cc dr dc).1 = true)
    (h5 : ChessLogic.kingScan (ChessLogic.makeMove g cr cc dr dc).2.board 5 = false)
    (h50 : ChessLogic.kingScan (ChessLogic.makeMove g cr cc dr dc).2.board 50 = false) :
    (g.current_player = "WHITE" →
      (ChessLogic.makeMove g cr cc dr dc).2.game_state = "BLACK_WON") ∧
    (g.current_player = "BLACK" →
      (ChessLogic.makeMove g cr cc dr dc).2.game_state = "WHITE_WON") := by
  rw [cl_success g cr cc dr dc hOk] at h5 h50 ⊢
  have h5b : ChessLogic.kingScan
      (ChessLogic.newBoard g.board (cellI g.board cr cc) cr cc dr dc) 5 = false := h5
  have h50b : ChessLogic.kingScan
      (ChessLogic.newBoard g.board (cellI g.board cr cc) cr cc dr dc) 50 = false := h50
  constructor
  · intro hw
    show ChessLogic.checkIfKingDead
      (ChessLogic.newBoard g.board (cellI g.board cr cc) cr cc dr dc)
      g.current_player g.game_state = "BLACK_WON"
    unfold ChessLogic.checkIfKingDead
    rw [if_pos ⟨h5b, h50b⟩, if_pos hw]
  · intro hb
    show ChessLogic.checkIfKingDead
      (ChessLogic.newBoard g.board (cellI g.board cr cc) cr cc dr dc)
      g.current_player g.game_state = "WHITE_WON"
    unfold ChessLogic.checkIfKingDead
    rw [if_pos ⟨h5b, h50b⟩, if_neg (by simp [hb])]

/-- Witness for C8: with no kings on the board at all, a legal white rook
move succeeds and the game state becomes BLACK_WON (White, the mover,
forfeits). -/
theorem double_king_loss_mover_forfeits_witness :
    (loneRookGame.current_player = "WHITE" →
      (ChessLogic.makeMove loneRookGame 4 0 4 3).2.game_state = "BLACK_WON") ∧
    (loneRookGame.current_player = "BLACK" →
      (ChessLogic.makeMove loneRookGame 4 0 4 3).2.game_state = "WHITE_WON") :=
  double_king_loss_mover_forfeits loneRookGame 4 0 4 3 (by decide) (by decide) (by decide)

/-- C9 (non-capture frame): in either engine, a successful move whose
destination was empty puts the moved piece on the destination, empties
the source, and leaves every other on-board square exactly as it was. -/
theorem noncapture_move_frame (gL gV : Game) (cr cc dr dc : Int)
    (hwfL : wfBoard gL.board) (hwfV : wfBoard gV.board)
    (hcr : inB cr) (hcc : inB cc) (hdr : inB dr) (hdc : inB dc)
    (hEmpL : cellI gL.board dr dc = 0) (hEmpV : cellI gV.board dr dc = 0)
    (hOkL : (ChessLogic.makeMove gL cr cc dr dc).1 = true)
    (hOkV : (ChessVar.makeMove gV cr cc dr dc).1 = true) :
    (cellI (ChessLogic.makeMove gL cr cc dr dc).2.board dr dc = cellI gL.board cr cc ∧
     (¬(cr = dr ∧ cc = dc) →
       cellI (ChessLogic.makeMove gL cr cc dr dc).2.board cr cc = 0) ∧
     (∀ r c : Int, inB r → inB c → ¬(r = cr ∧ c = cc) → ¬(r = dr ∧ c = dc) →
       cellI (ChessLogic.makeMove gL cr cc dr dc).2.board r c = cellI gL.board r c)) ∧
    (cellI (ChessVar.makeMove gV cr cc dr dc).2.board dr dc = cellI gV.board cr cc ∧
     (¬(cr = dr ∧ cc = dc) →
       cellI (ChessVar.makeMove gV cr cc dr dc).2.board cr cc = 0) ∧
     (∀ r c : Int, inB r → inB c → ¬(r = cr ∧ c = cc) → ¬(r = dr ∧ c = dc) →
       cellI (ChessVar.makeMove gV cr cc dr dc).2.board r c = cellI gV.board r c)) := by
  obtain ⟨hcr0, hcr7⟩ := hcr
  obtain ⟨hcc0, hcc7⟩ := hcc
  obtain ⟨hdr0, hdr7⟩ := hdr
  obtain ⟨hdc0, hdc7⟩ := hdc
  constructor
  · rw [cl_noncapture_board gL cr cc dr dc hwfL hcr0 (by omega) hcc0 (by omega)
      hdr0 (by omega) hdc0 (by omega) hEmpL hOkL]
    exact frame_pySet2 gL.board (cellI gL.board cr cc) cr cc dr dc hwfL
      hcr0 (by omega) hcc0 (by omega) hdr0 (by omega) hdc0 (by omega)
  · rw [cv_noncapture_board gV cr cc dr dc hwfV hcr0 (by omega) hcc0 (by omega)
      hdr0 (by omega) hdc0 (by omega) hEmpV hOkV]
    exact frame_pySet2 gV.board (cellI gV.board cr cc) cr cc dr dc hwfV
      hcr0 (by omega) hcc0 (by omega) hdr0 (by omega) hdc0 (by omega)

/-- Witness for C9: the opening move pawn e2 to e4 in both engines. -/
theorem noncapture_move_frame_witness :
    (cellI (ChessLogic.makeMove initGame 6 4 4 4).2.board 4 4 = cellI initGame.board 6 4 ∧
     (¬((6 : Int) = 4 ∧ (4 : Int) = 4) →
       cellI (ChessLogic.makeMove initGame 6 4 4 4).2.board 6 4 = 0) ∧
     (∀ r c : Int, inB r → inB c → ¬(r = 6 ∧ c = 4) → ¬(r = 4 ∧ c = 4) →
       cellI (ChessLogic.makeMove initGame 6 4 4 4).2.board r c = cellI initGame.board r c)) ∧
    (cellI (ChessVar.makeMove initGame 6 4 4 4).2.board 4 4 = cellI initGame.board 6 4 ∧
     (¬((6 : Int) = 4 ∧ (4 : Int) = 4) →
       cellI (ChessVar.makeMove initGame 6 4 4 4).2.board 6 4 = 0) ∧
     (∀ r c : Int, inB r → inB c → ¬(r = 6 ∧ c = 4) → ¬(r = 4 ∧ c = 4) →
       cellI (ChessVar.makeMove initGame 6 4 4 4).2.board r c = cellI initGame.board r c)) :=
  noncapture_move_frame initGame initGame 6 4 4 4
    (by decide) (by decide) (by decide) (by decide) (by decide) (by decide)
    (by decide) (by decide) (by decide) (by decide)

/-- C10 (piece-count monotonicity): any make_move call in either engine,
accepted or rejected, never increases the number of occupied squares. -/
theorem piece_count_monotone (gL gV : Game) (cr cc dr dc : Int) :
    countPieces (ChessLogic.makeMove gL cr cc dr dc).2.board ≤ countPieces gL.board ∧
    countPieces (ChessVar.makeMove gV cr cc dr dc).2.board ≤ countPieces gV.board :=
  ⟨cl_count_le gL cr cc dr dc, cv_count_le gV cr cc dr dc⟩

set_option maxRecDepth 4000 in
/-- C1 (terminal lock violated by chess_logic): the session clGame5,
reached from the start by five legal moves, has game state WHITE_WON,
yet AtomicChessGame.make_move accepts the next black pawn move and
mutates the board, because its validation never consults the game state;
ChessVar.make_move rejects the same move unchanged, as the claim
requires. -/
theorem chessLogic_ignores_terminal_state :
    (ChessLogic.makeMove initGame 7 6 5 5).1 = true ∧
    (ChessLogic.makeMove clGame1 1 0 2 0).1 = true ∧
    (ChessLogic.makeMove clGame2 5 5 3 4).1 = true ∧
    (ChessLogic.makeMove clGame3 2 0 3 0).1 = true ∧
    (ChessLogic.makeMove clGame4 3 4 1 5).1 = true ∧
    clGame5.game_state = "WHITE_WON" ∧
    (ChessLogic.makeMove clGame5 3 0 4 0).1 = true ∧
    (ChessLogic.makeMove clGame5 3 0 4 0).2.board ≠ clGame5.board ∧
    ChessVar.makeMove clGame5 3 0 4 0 = (false, clGame5) := by
  decide

set_option maxRecDepth 4000 in
/-- C3 (explosion wraps off the board edge in ChessVar): capturing the
rook on a8 (square (0,0)) makes the offsets toward row -1 and column -1
wrap around, so the white knight parked on a1 (square (7,0)) is cleared,
a square that is neither the source, the destination, nor an in-bounds
neighbour of the destination; AtomicChessGame, whose explosion checks
bounds explicitly, leaves (7,0) untouched on the same move. -/
theorem chessVar_explosion_wraps_board_edge :
    cellI wrapCaptureGame.board 7 0 = 20 ∧
    (ChessVar.makeMove wrapCaptureGame 4 0 0 0).1 = true ∧
    cellI (ChessVar.makeMove wrapCaptureGame 4 0 0 0).2.board 7 0 = 0 ∧
    (ChessLogic.makeMove wrapCaptureGame 4 0 0 0).1 = true ∧
    cellI (ChessLogic.makeMove wrapCaptureGame 4 0 0 0).2.board 7 0 = 20 := by
  decide

set_option maxRecDepth 4000 in
/-- C5 (pawn double-step ignores the blocker): with a white knight on the
intermediate square a6, both engines still accept the black pawn
double-step a7 to a5 and place the pawn on (3,0) — neither
implementation tests the intermediate square. -/
theorem pawn_double_step_ignores_blocker :
    cellI blockedPawnGame.board 2 0 = 20 ∧
    cellI blockedPawnGame.board 3 0 = 0 ∧
    (ChessLogic.makeMove blockedPawnGame 1 0 3 0).1 = true ∧
    cellI (ChessLogic.makeMove blockedPawnGame 1 0 3 0).2.board 3 0 = 6 ∧
    (ChessVar.makeMove blockedPawnGame 1 0 3 0).1 = true ∧
    cellI (ChessVar.makeMove blockedPawnGame 1 0 3 0).2.board 3 0 = 6 := by
  decide

set_option maxRecDepth 4000 in
/-- C6 (ChessVar accepts a two-row pawn capture): the white pawn on a2
captures the black rook on b4, a (dr, dc) = (-2, 1) move, because
ChessVar's only distance rule for pawns allows two rows whenever any
same-coloured pawn stands on its start row and no rule bounds the
column distance; AtomicChessGame rejects the same move. -/
theorem chessVar_accepts_two_row_pawn_capture :
    cellI widePawnCaptureGame.board 6 0 = 60 ∧
    cellI widePawnCaptureGame.board 4 1 = 1 ∧
    (ChessVar.makeMove widePawnCaptureGame 6 0 4 1).1 = true ∧
    cellI (ChessVar.makeMove widePawnCaptureGame 6 0 4 1).2.board 4 1 = 0 ∧
    cellI (ChessVar.makeMove widePawnCaptureGame 6 0 4 1).2.board 6 0 = 0 ∧
    (ChessLogic.makeMove widePawnCaptureGame 6 0 4 1).1 = false := by
  decide

set_option maxRecDepth 4000 in
/-- C7 (ChessVar moves from an empty square): with Black to move after
1. Nc3, a move whose source square (4,0) is empty is accepted by
ChessVar.make_move — check_if_valid_player only returns False for a
foreign piece, and the empty code 0 falls through every test — so the
call returns True and hands the turn to White; AtomicChessGame rejects
the same request. -/
theorem chessVar_moves_from_empty_square :
    cvGame1.current_player = "BLACK" ∧
    cellI cvGame1.board 4 0 = 0 ∧
    (ChessVar.makeMove cvGame1 4 0 3 0).1 = true ∧
    (ChessVar.makeMove cvGame1 4 0 3 0).2.current_player = "WHITE" ∧
    (ChessVar.makeMove cvGame1 4 0 3 0).2.board = cvGame1.board ∧
    (ChessLogic.makeMove cvGame1 4 0 3 0).1 = false := by
  decide

end AtomicChess
